import Mathlib

/-!
Shallow embedding of the Titanic ETL pipeline in `bin/main.py`
(extract / transform / model / load), together with theorems settling
the specification claims about it.

Modelling conventions:
  - a pandas cell that may be missing is an `Option`; `none` is NaN;
  - randomness (pandas `DataFrame.sample`, sklearn `train_test_split`)
    is modelled by passing the randomly chosen index selection or
    permutation as an explicit argument, with the validity conditions
    the library guarantees checked inside the operation;
  - a library call that raises a Python exception is modelled by an
    `Option` result, `none` meaning the exception.
-/

namespace TitanicETL

/-- A passenger record: one row of the observation table.  The source
columns (`lib.load_titanic`) are `sex`, `name`, `pclass`,
`siblings_spouses_aboard`, `parents_children_aboard`, `fare`,
`survived`; `transform` later adds `male` and `honorific`, and `model`
adds `pred`.  A column that has not been added yet, or a missing cell,
is `none`. -/
structure Row where
  sex : Option String
  name : Option String
  pclass : Option Int
  siblings_spouses_aboard : Option Int
  parents_children_aboard : Option Int
  fare : Option Rat
  survived : Option Int
  male : Option Bool := none
  honorific : Option String := none
  pred : Option Int := none
deriving DecidableEq, Repr

/-- A row with every cell missing, used to build concrete test tables. -/
def blankRow : Row :=
  { sex := none, name := none, pclass := none, siblings_spouses_aboard := none,
    parents_children_aboard := none, fare := none, survived := none }

/-- Python `str(x)` applied to a cell of the `name` column: a present
string renders as itself, and the missing value NaN renders as the
string `"nan"`. -/
def pyStr : Option String → String
  | some s => s
  | none => "nan"

/-- Helper for `pySplit`: walk the characters, accumulating the current
maximal run of non-whitespace characters (in reverse) and emitting it
when whitespace or the end of the string is reached. -/
def pySplitAux : List Char → List Char → List String
  | [], acc => if acc.isEmpty then [] else [String.mk acc.reverse]
  | c :: cs, acc =>
    if c.isWhitespace then
      if acc.isEmpty then pySplitAux cs []
      else String.mk acc.reverse :: pySplitAux cs []
    else pySplitAux cs (c :: acc)

/-- Python `str.split()` with no separator argument: the maximal runs of
non-whitespace characters, in order; runs of whitespace separate them
and leading/trailing whitespace is dropped, so the result of splitting
an empty or all-whitespace string is the empty list. -/
def pySplit (s : String) : List String := pySplitAux s.toList []

/-- The lambda of the honorific assignment in `transform`:
`lambda x: str(x).split()[0]`.  Indexing an empty list raises
IndexError, modelled by `none`. -/
def honorificOf (name : Option String) : Option String :=
  (pySplit (pyStr name)).head?

/-- Source line 76: `observations['male'] = observations['sex'] == 'male'`.
Pandas elementwise equality against the literal `"male"`; a missing
`sex` compares unequal, so `male` is `false` there. -/
def addMale (obs : List Row) : List Row :=
  obs.map (fun r => { r with male := some (decide (r.sex = some "male")) })

/-- Pandas `Series.apply` of a fallible per-row function: the first row
on which the function raises aborts the whole apply. -/
def seriesApply (f : Row → Option Row) : List Row → Option (List Row)
  | [] => some []
  | r :: rs =>
    match f r, seriesApply f rs with
    | some r2, some rs2 => some (r2 :: rs2)
    | _, _ => none

/-- Source line 79: `observations['honorific'] = observations['name'].apply(lambda x:
str(x).split()[0])` (line 79). -/
def addHonorific (obs : List Row) : Option (List Row) :=
  seriesApply (fun r => (honorificOf r.name).map (fun h => { r with honorific := some h })) obs

/-- The two column derivations of `transform`, in source order. -/
def transformColumns (obs : List Row) : Option (List Row) :=
  addHonorific (addMale obs)

/-- The number of test rows sklearn computes for `test_size=0.2`:
`ceil(0.2 * n)`, which for the float constant `0.2` equals the exact
ceiling of `n / 5` for every dataframe-sized `n`. -/
def testCount (n : Nat) : Nat := (n + 4) / 5

/-- Source line 80, `sklearn.model_selection.train_test_split(xs, test_size=0.2)`: draw
a random permutation `perm` of the row positions, take the first
`testCount` positions as the test partition and the rest as the train
partition.  The permutation is passed explicitly; an argument that is
not a valid permutation of the positions is rejected. -/
def train_test_split (xs : List Row) (perm : List Nat) :
    Option (List Row × List Row) :=
  if perm.Nodup ∧ perm.length = xs.length ∧ (∀ i, i ∈ perm → i < xs.length) then
    some ((perm.drop (testCount xs.length)).filterMap (fun i => xs[i]?),
          (perm.take (testCount xs.length)).filterMap (fun i => xs[i]?))
  else none

/-- The whole `transform` stage (lines 66-85): derive `male`, derive
`honorific` (which can raise), then split 80/20. -/
def transform (obs : List Row) (perm : List Nat) :
    Option (List Row × List Row) :=
  (transformColumns obs).bind (fun rows => train_test_split rows perm)

section SeriesApplyLemmas

theorem seriesApply_length (f : Row → Option Row) :
    ∀ (l l2 : List Row), seriesApply f l = some l2 → l2.length = l.length := by
  intro l
  induction l with
  | nil => intro l2 h; simp [seriesApply] at h; simp [← h]
  | cons r rs ih =>
    intro l2 h
    simp only [seriesApply] at h
    cases hf : f r with
    | none => rw [hf] at h; exact absurd h (by simp)
    | some r2 =>
      rw [hf] at h
      cases hrec : seriesApply f rs with
      | none => rw [hrec] at h; exact absurd h (by simp)
      | some rs2 =>
        rw [hrec] at h
        simp only [Option.some.injEq] at h
        subst h
        simp [ih rs2 hrec]

theorem seriesApply_getElem (f : Row → Option Row) :
    ∀ (l l2 : List Row), seriesApply f l = some l2 →
      ∀ i : Nat, l2[i]? = (l[i]?).bind f := by
  intro l
  induction l with
  | nil => intro l2 h i; simp [seriesApply] at h; subst h; simp
  | cons r rs ih =>
    intro l2 h i
    simp only [seriesApply] at h
    cases hf : f r with
    | none => rw [hf] at h; exact absurd h (by simp)
    | some r2 =>
      rw [hf] at h
      cases hrec : seriesApply f rs with
      | none => rw [hrec] at h; exact absurd h (by simp)
      | some rs2 =>
        rw [hrec] at h
        simp only [Option.some.injEq] at h
        subst h
        cases i with
        | zero => simp [hf]
        | succ j => simpa using ih rs2 hrec j

theorem seriesApply_mem (f : Row → Option Row) :
    ∀ (l l2 : List Row), seriesApply f l = some l2 →
      ∀ b, b ∈ l2 → ∃ a, a ∈ l ∧ f a = some b := by
  intro l
  induction l with
  | nil => intro l2 h b hb; simp [seriesApply] at h; subst h; simp at hb
  | cons r rs ih =>
    intro l2 h b hb
    simp only [seriesApply] at h
    cases hf : f r with
    | none => rw [hf] at h; exact absurd h (by simp)
    | some r2 =>
      rw [hf] at h
      cases hrec : seriesApply f rs with
      | none => rw [hrec] at h; exact absurd h (by simp)
      | some rs2 =>
        rw [hrec] at h
        simp only [Option.some.injEq] at h
        subst h
        rcases List.mem_cons.mp hb with hb | hb
        · exact ⟨r, List.mem_cons_self r rs, by rw [hf, hb]⟩
        · rcases ih rs2 hrec b hb with ⟨a, ha, hfa⟩
          exact ⟨a, List.mem_cons_of_mem r ha, hfa⟩

end SeriesApplyLemmas

/-- A pandas dataframe: the row index labels alongside the rows.
`lib.load_titanic` reads a CSV, whose default index is `0, 1, 2, ...`,
but the claims quantify over arbitrary input tables, so the index is a
field. -/
structure DataFrame where
  idx : List Nat
  rows : List Row
deriving DecidableEq, Repr

/-- Source line 58, `observations.sample(n)`: pick `n` distinct row positions
at random (the random choice `sel` is an explicit argument) and return
those rows with their original index labels.  When `n` exceeds the
population no valid selection exists and pandas raises ValueError
(`none`). -/
def sampleN (df : DataFrame) (n : Nat) (sel : List Nat) : Option DataFrame :=
  if sel.length = n ∧ sel.Nodup ∧ (∀ i, i ∈ sel → i < df.rows.length) then
    some { idx := sel.filterMap (fun i => df.idx[i]?),
           rows := sel.filterMap (fun i => df.rows[i]?) }
  else none

/-- Source line 59, `observations.reset_index()`: the index becomes the
contiguous range `0, ..., len-1`.  (Pandas also moves the old index
into a new column; no claim mentions that column, and `Row` does not
carry it.) -/
def reset_index (df : DataFrame) : DataFrame :=
  { idx := List.range df.rows.length, rows := df.rows }

/-- The `extract` stage (lines 43-63): load the dataset (here the
arbitrary argument `input`), and when the `test_run` configuration flag
is set, subsample to 100 rows and reset the index. -/
def extract (test_run : Bool) (input : DataFrame) (sel : List Nat) :
    Option DataFrame :=
  if test_run then (sampleN input 100 sel).map reset_index else some input

/-- The grid values `numpy.logspace(-9, 3, 1)`: a single point, `10 ^ (-9)`. -/
def svc__gamma : List Rat := [(1 : Rat) / 1000000000]

/-- The grid values `numpy.logspace(-2, 10, 1)`: a single point, `10 ^ (-2)`. -/
def svc__C : List Rat := [(1 : Rat) / 100]

/-- The grid values `['linear', 'poly', 'rbf', 'sigmoid']`. -/
def svc__kernel : List String := ["linear", "poly", "rbf", "sigmoid"]

/-- The grid values `range(2, 8)`: the degrees 2, 3, 4, 5, 6, 7. -/
def svc__degree : List Nat := List.range' 2 6

/-- One candidate hyperparameter combination for the support-vector
classifier. -/
structure SVCParams where
  gamma : Rat
  C : Rat
  kernel : String
  degree : Nat
deriving DecidableEq, Repr

/-- The candidate list of `GridSearchCV(param_grid=...)`: the Cartesian
product of the four per-parameter value lists (sklearn ParameterGrid
semantics). -/
def param_grid_combinations : List SVCParams :=
  svc__gamma.flatMap (fun g =>
    svc__C.flatMap (fun c =>
      svc__kernel.flatMap (fun k =>
        svc__degree.map (fun d => SVCParams.mk g c k d))))

/-- The grid-search configuration object built on lines 111-116: the
candidates it evaluates, the scoring function, the number of
cross-validation folds, and the parallelism setting. -/
structure GridSearchCVConfig where
  candidates : List SVCParams
  scoring : String
  cv : Nat
  n_jobs : Int
deriving Repr

/-- Source lines 116: `GridSearchCV(transformation_pipeline, param_grid=param_grid,
scoring='accuracy', cv=2, n_jobs=-1)`. -/
def trained_model_search : GridSearchCVConfig :=
  { candidates := param_grid_combinations, scoring := "accuracy", cv := 2, n_jobs := -1 }

/-- Source line 122, `data_set['pred'] = trained_model.predict(data_set)`: set the
`pred` column of one row from the fitted predictor `p`. -/
def setPred (p : Row → Int) (r : Row) : Row := { r with pred := some (p r) }

/-- The prediction loop of `model` (lines 120-122): assign a `pred`
column to the train partition and the test partition.  (Fitting itself
is a library call on `train.copy()`, so it touches neither partition;
the fitted predictor is the argument `p`.) -/
def modelPredict (p : Row → Int) (train test : List Row) :
    List Row × List Row :=
  (train.map (setPred p), test.map (setPred p))

/-- The label domain the classifier is fitted on: the present values of
the `survived` column of the train partition (`y=train['survived']`,
line 118).  The sklearn predict contract returns values from this
domain. -/
def trainLabels (train : List Row) : List Int :=
  train.filterMap (fun r => r.survived)

/-- The row `r` carries a non-null prediction drawn from `labels`. -/
def predFromLabels (labels : List Int) (r : Row) : Prop :=
  ∃ v, r.pred = some v ∧ v ∈ labels

/-- Two rows agree on every column except `pred`. -/
def sameExceptPred (r r2 : Row) : Prop :=
  r2.sex = r.sex ∧ r2.name = r.name ∧ r2.pclass = r.pclass ∧
  r2.siblings_spouses_aboard = r.siblings_spouses_aboard ∧
  r2.parents_children_aboard = r.parents_children_aboard ∧
  r2.fare = r.fare ∧ r2.survived = r.survived ∧
  r2.male = r.male ∧ r2.honorific = r.honorific

/-- Positionwise `sameExceptPred` between optional lookups: both absent,
or both present and agreeing on every column but `pred`. -/
def agreeExceptPred : Option Row → Option Row → Prop
  | some r, some r2 => sameExceptPred r r2
  | none, none => True
  | _, _ => False

/-- A filesystem path, `os.path.join(folder, file)`. -/
structure Path where
  folder : String
  file : String
deriving DecidableEq, Repr

/-- The log messages the `load` stage can emit, one constructor per
`logging` call in the source; `render` below gives the literal text. -/
inductive LogMsg
  | beginLoad
  | savingTrain (p : Path)
  | savingTest (p : Path)
  | savingPipeline (p : Path)
  | savingModel (p : Path)
  | endLoad
deriving DecidableEq, Repr

/-- The literal text of each `load` log message. -/
def LogMsg.render : LogMsg → String
  | .beginLoad => "Begin load"
  | .savingTrain p => "Saving train to path: " ++ p.folder ++ "/" ++ p.file
  | .savingTest p => "Saving test to path: " ++ p.folder ++ "/" ++ p.file
  | .savingPipeline p => "Saving transformation_pipeline to path: " ++ p.folder ++ "/" ++ p.file
  | .savingModel p => "Saving trained_model to path: " ++ p.folder ++ "/" ++ p.file
  | .endLoad => "End load"

/-- The part of a fitted `GridSearchCV` object that `load` reads: the
`cv_results_` table it prints. -/
structure FittedModel where
  cvResults : String
deriving DecidableEq, Repr

/-- Everything observable that `load` produces: the log stream, the CSV
writes (path and the rows written), the binary pickle writes, and the
standard-output prints. -/
structure LoadResult where
  logs : List LogMsg
  csvWrites : List (Path × List Row)
  pklWrites : List Path
  stdout : List String
deriving Repr

/-- The `load` stage (lines 129-169), with `lib.get_batch_output_folder()`
as the argument `folder`.  Note line 148 of the source formats the
train path into the test-save log message.  The two `if x is not None`
guards skip the pickle writes when the object is absent; the skipped
branch emits nothing. -/
def load (folder : String) (train test : List Row)
    (transformation_pipeline : Option Unit) (trained_model : Option FittedModel) :
    LoadResult :=
  let train_path : Path := Path.mk folder "train.csv"
  let test_path : Path := Path.mk folder "test.csv"
  let pipeLogsWrites : List LogMsg × List Path :=
    match transformation_pipeline with
    | some _ => ([LogMsg.savingPipeline (Path.mk folder "transformation_pipeline.pkl")],
                 [Path.mk folder "transformation_pipeline.pkl"])
    | none => ([], [])
  let modelLogsWritesOut : List LogMsg × List Path × List String :=
    match trained_model with
    | some fm => ([LogMsg.savingModel (Path.mk folder "trained_model.pkl")],
                  [Path.mk folder "trained_model.pkl"], [fm.cvResults])
    | none => ([], [], [])
  { logs := [LogMsg.beginLoad, LogMsg.savingTrain train_path,
             LogMsg.savingTest train_path] ++
            pipeLogsWrites.1 ++ modelLogsWritesOut.1 ++ [LogMsg.endLoad],
    csvWrites := [(train_path, train), (test_path, test)],
    pklWrites := pipeLogsWrites.2 ++ modelLogsWritesOut.2.1,
    stdout := modelLogsWritesOut.2.2 }

theorem length_filterMap_getElem (xs : List Row) (l : List Nat)
    (h : ∀ i, i ∈ l → i < xs.length) :
    (l.filterMap (fun i => xs[i]?)).length = l.length := by
  induction l with
  | nil => simp
  | cons a as ih =>
    have ha : a < xs.length := h a (List.mem_cons_self a as)
    have : xs[a]? = some (xs.get ⟨a, ha⟩) := List.getElem?_eq_getElem ha
    simp only [List.filterMap_cons, this, List.length_cons]
    rw [ih (fun i hi => h i (List.mem_cons_of_mem a hi))]

theorem agreeExceptPred_map_setPred (p : Row → Int) (l : List Row) (i : Nat) :
    agreeExceptPred (l[i]?) ((l.map (setPred p))[i]?) := by
  rw [List.getElem?_map]
  cases hl : l[i]? with
  | none => simp [agreeExceptPred]
  | some r => simp [agreeExceptPred, setPred, sameExceptPred]

/-- Claim C6: the hyperparameter grid searched by `model` has exactly 24
combinations, the Cartesian product of 1 kernel-coefficient value
(`numpy.logspace(-9, 3, 1)`), 1 regularization-strength value
(`numpy.logspace(-2, 10, 1)`), the 4 kernel types linear / poly / rbf /
sigmoid, and the 6 polynomial degrees 2 through 7; each candidate is
evaluated with `cv=2` folds scored by `'accuracy'`. -/
theorem grid_search_24_combinations :
    trained_model_search.cv = 2 ∧
    trained_model_search.scoring = "accuracy" ∧
    svc__gamma.length = 1 ∧
    svc__C.length = 1 ∧
    svc__kernel.length = 4 ∧
    svc__degree = [2, 3, 4, 5, 6, 7] ∧
    trained_model_search.candidates.length = 24 ∧
    trained_model_search.candidates.map (fun c => (c.kernel, c.degree)) =
      [("linear", 2), ("linear", 3), ("linear", 4), ("linear", 5), ("linear", 6), ("linear", 7),
       ("poly", 2), ("poly", 3), ("poly", 4), ("poly", 5), ("poly", 6), ("poly", 7),
       ("rbf", 2), ("rbf", 3), ("rbf", 4), ("rbf", 5), ("rbf", 6), ("rbf", 7),
       ("sigmoid", 2), ("sigmoid", 3), ("sigmoid", 4), ("sigmoid", 5), ("sigmoid", 6), ("sigmoid", 7)] ∧
    trained_model_search.candidates.map (fun c => c.gamma) =
      List.replicate 24 ((1 : Rat) / 1000000000) ∧
    trained_model_search.candidates.map (fun c => c.C) =
      List.replicate 24 ((1 : Rat) / 100) := by
  exact ⟨rfl, rfl, rfl, rfl, rfl, by decide, by decide, by decide, rfl, rfl⟩

/-- Claim C10: the informational log message emitted when saving the
test partition reports the train file path (`line 148` formats
`train_path`), although the rows written at that point go to the test
path.  The third log entry of `load` is `savingTest` carrying
`folder/train.csv`, while the second CSV write pairs `folder/test.csv`
with the test rows; the final conjunct shows the literal message text. -/
theorem load_test_log_reports_train_path (folder : String) (train test : List Row)
    (tp : Option Unit) (tm : Option FittedModel) :
    ((load folder train test tp tm).logs)[2]? =
      some (LogMsg.savingTest (Path.mk folder "train.csv")) ∧
    ((load folder train test tp tm).csvWrites)[1]? =
      some (Path.mk folder "test.csv", test) ∧
    (LogMsg.savingTest (Path.mk folder "train.csv")).render =
      "Saving test to path: " ++ folder ++ "/" ++ "train.csv" := by
  cases tp <;> cases tm <;> exact ⟨rfl, rfl, rfl⟩

/-- Claim C4, counterexample: in a run of `load` where both the
transformation pipeline and the trained model are absent, the log
stream is exactly the four messages below — the skipped serializations
leave no log entry at all (the source `if x is not None:` guards have
no else branch), refuting the part of the claim that says the skip is
logged.  The second conjunct checks mechanically that no message in
that stream concerns either binary artifact. -/
theorem load_skip_not_logged_counterexample :
    (load "output" [] [] none none).logs =
      [LogMsg.beginLoad, LogMsg.savingTrain (Path.mk "output" "train.csv"),
       LogMsg.savingTest (Path.mk "output" "train.csv"), LogMsg.endLoad] ∧
    ((load "output" [] [] none none).logs.all (fun m =>
      match m with
      | LogMsg.savingPipeline _ => false
      | LogMsg.savingModel _ => false
      | _ => true)) = true := by
  exact ⟨rfl, rfl⟩

/-- Claim C4 (amended): when the fitted transformation pipeline or the
grid-search result object is absent, its binary serialization is
skipped without raising an error and without emitting any log entry
for the skip; when both are present, both binary artifacts are written
(and each write is logged).  `load` is a total function, so no input
makes it fail. -/
theorem load_pickle_skip_and_write (folder : String) (train test : List Row)
    (fm : FittedModel) :
    (load folder train test none none).pklWrites = [] ∧
    (load folder train test none none).logs =
      [LogMsg.beginLoad, LogMsg.savingTrain (Path.mk folder "train.csv"),
       LogMsg.savingTest (Path.mk folder "train.csv"), LogMsg.endLoad] ∧
    (load folder train test none (some fm)).pklWrites =
      [Path.mk folder "trained_model.pkl"] ∧
    (load folder train test (some ()) none).pklWrites =
      [Path.mk folder "transformation_pipeline.pkl"] ∧
    (load folder train test (some ()) (some fm)).pklWrites =
      [Path.mk folder "transformation_pipeline.pkl", Path.mk folder "trained_model.pkl"] ∧
    (load folder train test (some ()) (some fm)).logs =
      [LogMsg.beginLoad, LogMsg.savingTrain (Path.mk folder "train.csv"),
       LogMsg.savingTest (Path.mk folder "train.csv"),
       LogMsg.savingPipeline (Path.mk folder "transformation_pipeline.pkl"),
       LogMsg.savingModel (Path.mk folder "trained_model.pkl"), LogMsg.endLoad] := by
  exact ⟨rfl, rfl, rfl, rfl, rfl, rfl⟩

/-- Claim C9: after the 80/20 split, the only mutation either partition
undergoes is the addition of the `pred` column in `model`: both
partitions keep their length, and position by position every column
except `pred` is unchanged (`model` fits on `train.copy()`, so fitting
touches neither partition); `load` then writes exactly the partitions
it is given to the two CSV paths, changing nothing. -/
theorem partitions_unchanged_except_pred (p : Row → Int) (train test : List Row)
    (folder : String) (tp : Option Unit) (tm : Option FittedModel) :
    ((modelPredict p train test).1).length = train.length ∧
    ((modelPredict p train test).2).length = test.length ∧
    (∀ i : Nat, agreeExceptPred (train[i]?) (((modelPredict p train test).1)[i]?)) ∧
    (∀ i : Nat, agreeExceptPred (test[i]?) (((modelPredict p train test).2)[i]?)) ∧
    (load folder ((modelPredict p train test).1) ((modelPredict p train test).2) tp tm).csvWrites =
      [(Path.mk folder "train.csv", (modelPredict p train test).1),
       (Path.mk folder "test.csv", (modelPredict p train test).2)] := by
  refine ⟨by simp [modelPredict], by simp [modelPredict], ?_, ?_, rfl⟩
  · intro i; exact agreeExceptPred_map_setPred p train i
  · intro i; exact agreeExceptPred_map_setPred p test i

/-- A male passenger row used in concrete runs of the pipeline. -/
def exRowMale : Row :=
  { blankRow with sex := some "male", name := some "Mr. Henry Jr Sutehall", survived := some 0 }

/-- A female passenger row used in concrete runs of the pipeline. -/
def exRowFemale : Row :=
  { blankRow with sex := some "female", name := some "Mrs. A Example", survived := some 1 }

/-- A two-row observation table used in concrete runs of the pipeline. -/
def exObs : List Row := [exRowMale, exRowFemale]

/-- The row `exRowMale` after the two column derivations of `transform`. -/
def exRowMaleOut : Row := { exRowMale with male := some true, honorific := some "Mr." }

/-- The row `exRowFemale` after the two column derivations of `transform`. -/
def exRowFemaleOut : Row := { exRowFemale with male := some false, honorific := some "Mrs." }

/-- Claim C8: after the column derivations of `transform`, the `male`
column of every row is `true` exactly when that row's `sex` cell is the
literal string `"male"` (line 76 of the source; a missing `sex`
compares unequal, giving `false`). -/
theorem male_iff_sex_male (obs rows2 : List Row)
    (h : transformColumns obs = some rows2) :
    ∀ r2, r2 ∈ rows2 → (r2.male = some true ↔ r2.sex = some "male") := by
  intro r2 hr2
  rcases seriesApply_mem _ _ _ h r2 hr2 with ⟨a, ha, hfa⟩
  simp only [addMale, List.mem_map] at ha
  rcases ha with ⟨r, hr, rfl⟩
  rcases Option.map_eq_some'.mp hfa with ⟨tok, htok, rfl⟩
  simp

/-- Witness for C8: a concrete run of the column derivations on
`exObs`, checked at its first output row. -/
theorem male_iff_sex_male_witness :
    exRowMaleOut.male = some true ↔ exRowMaleOut.sex = some "male" :=
  male_iff_sex_male exObs [exRowMaleOut, exRowFemaleOut] (by decide)
    exRowMaleOut (by decide)

/-- Claim C2, counterexample: on a table whose single row has a missing
`name`, the honorific the code derives is the string `"nan"` (Python
`str` applied to NaN), not the empty string the claim specifies as the
fallback. -/
theorem honorific_nan_fallback_counterexample :
    (transformColumns [blankRow]).map (fun l => l.map (fun r => r.honorific)) =
      some [some "nan"] ∧
    decide ((transformColumns [blankRow]).map (fun l => l.map (fun r => r.honorific)) =
      some [some ""]) = false := by
  exact ⟨by decide, by decide⟩

/-- Claim C2 (amended): after the column derivations of `transform`,
every row's `honorific` cell holds the first whitespace-delimited token
of the Python string rendering of that row's `name` cell; a missing
`name` renders as the string `"nan"`, so the fallback for an absent
name is `"nan"`, not the empty string. -/
theorem honorific_first_token (obs rows2 : List Row)
    (h : transformColumns obs = some rows2) :
    rows2.length = obs.length ∧
    (∀ i : Nat, ∀ r, obs[i]? = some r →
      ∃ tok, honorificOf r.name = some tok ∧
        (rows2[i]?).map (fun r2 => r2.honorific) = some (some tok)) ∧
    honorificOf none = some "nan" := by
  have hlen : rows2.length = obs.length := by
    have := seriesApply_length _ _ _ h
    simpa [addMale] using this
  refine ⟨hlen, ?_, by decide⟩
  intro i r hr
  have hi : i < obs.length := by
    by_contra hge
    rw [List.getElem?_eq_none (Nat.le_of_not_lt hge)] at hr
    exact Option.noConfusion hr
  have hg := seriesApply_getElem _ _ _ h i
  have hm : (addMale obs)[i]? = some { r with male := some (decide (r.sex = some "male")) } := by
    simp [addMale, List.getElem?_map, hr]
  rw [hm] at hg
  cases htok : honorificOf r.name with
  | none =>
    exfalso
    rw [Option.some_bind, htok] at hg
    simp only [Option.map_none'] at hg
    have hi2 : i < rows2.length := hlen ▸ hi
    rw [List.getElem?_eq_getElem hi2] at hg
    exact Option.noConfusion hg
  | some tok =>
    refine ⟨tok, rfl, ?_⟩
    rw [Option.some_bind, htok] at hg
    simp only [Option.map_some'] at hg
    rw [hg]
    rfl

/-- Witness for C2 (amended): the column derivations on the concrete
table `[exRowMale, blankRow]`; the missing name of `blankRow` gets the
honorific `"nan"`. -/
theorem honorific_first_token_witness :
    ([exRowMaleOut, { blankRow with male := some false, honorific := some "nan" }] : List Row).length =
      ([exRowMale, blankRow] : List Row).length ∧
    (∀ i : Nat, ∀ r, ([exRowMale, blankRow] : List Row)[i]? = some r →
      ∃ tok, honorificOf r.name = some tok ∧
        (([exRowMaleOut, { blankRow with male := some false, honorific := some "nan" }] : List Row)[i]?).map
          (fun r2 => r2.honorific) = some (some tok)) ∧
    honorificOf none = some "nan" :=
  honorific_first_token [exRowMale, blankRow]
    [exRowMaleOut, { blankRow with male := some false, honorific := some "nan" }] (by decide)

/-- Claim C3: the honorific tokenization is not total.  A missing
(NaN) name does not crash — it yields the string `"nan"` — but a name
that is the empty string, or only whitespace, makes
`str(x).split()[0]` raise IndexError (the split is empty), aborting
`transform`: the code evaluated at those inputs returns the failure
value. -/
theorem honorific_crashes_on_empty_name :
    transformColumns [{ blankRow with name := some "" }] = none ∧
    transformColumns [{ blankRow with name := some " " }] = none ∧
    transformColumns [blankRow] =
      some [{ blankRow with male := some false, honorific := some "nan" }] := by
  exact ⟨by decide, by decide, by decide⟩

/-- A nodup list of naturals all below `n` has at most `n` elements. -/
theorem nodup_bounded_length_le (l : List Nat) (n : Nat) (hnd : l.Nodup)
    (hb : ∀ i, i ∈ l → i < n) : l.length ≤ n := by
  have hsub : l ⊆ List.range n := fun i hi => List.mem_range.mpr (hb i hi)
  have := (List.subperm_of_subset hnd hsub).length_le
  simpa using this

/-- Claim C5: whenever `transform` completes, the train and test row
counts sum exactly to the input row count, the test partition is the
ceiling of one fifth of the input (sklearn computes
`ceil(0.2 * n)` test rows for `test_size=0.2`), and the two partitions
draw from disjoint positions of the (column-derived) table — they are
row-disjoint. -/
theorem transform_split_partition (obs : List Row) (perm : List Nat)
    (train test : List Row) (h : transform obs perm = some (train, test)) :
    train.length + test.length = obs.length ∧
    test.length = testCount obs.length ∧
    ∃ rows2, transformColumns obs = some rows2 ∧
      rows2.length = obs.length ∧
      test = (perm.take (testCount obs.length)).filterMap (fun i => rows2[i]?) ∧
      train = (perm.drop (testCount obs.length)).filterMap (fun i => rows2[i]?) ∧
      List.Disjoint (perm.take (testCount obs.length)) (perm.drop (testCount obs.length)) := by
  unfold transform at h
  cases hc : transformColumns obs with
  | none => rw [hc] at h; exact absurd h (by simp)
  | some rows2 =>
    rw [hc, Option.some_bind] at h
    have hlen2 : rows2.length = obs.length := by
      have := seriesApply_length _ _ _ hc
      simpa [addMale] using this
    unfold train_test_split at h
    by_cases hcond : perm.Nodup ∧ perm.length = rows2.length ∧ (∀ i, i ∈ perm → i < rows2.length)
    · rw [if_pos hcond] at h
      rcases hcond with ⟨hnd, hpl, hbound⟩
      have hpair := Prod.mk.inj (Option.some.inj h)
      have htrain : train = (perm.drop (testCount obs.length)).filterMap (fun i => rows2[i]?) := by
        rw [← hlen2]; exact hpair.1.symm
      have htest : test = (perm.take (testCount obs.length)).filterMap (fun i => rows2[i]?) := by
        rw [← hlen2]; exact hpair.2.symm
      have hle : testCount obs.length ≤ perm.length := by
        rw [hpl, hlen2]; unfold testCount; omega
      have htestlen : test.length = testCount obs.length := by
        rw [htest, length_filterMap_getElem rows2 _
          (fun i hi => hbound i (List.mem_of_mem_take hi))]
        rw [List.length_take]
        omega
      have htrainlen : train.length = perm.length - testCount obs.length := by
        rw [htrain, length_filterMap_getElem rows2 _
          (fun i hi => hbound i (List.mem_of_mem_drop hi))]
        rw [List.length_drop]
      refine ⟨?_, htestlen, rows2, rfl, hlen2, htest, htrain, ?_⟩
      · rw [htestlen, htrainlen, hpl, hlen2]; omega
      · exact List.disjoint_take_drop hnd (Nat.le_refl _)
    · rw [if_neg hcond] at h
      exact absurd h (by simp)

/-- Witness for C5: a concrete run of `transform` on the two-row table
`exObs` with the permutation `[1, 0]`: one test row, one train row. -/
theorem transform_split_partition_witness :
    ([exRowMaleOut] : List Row).length + ([exRowFemaleOut] : List Row).length = exObs.length ∧
    ([exRowFemaleOut] : List Row).length = testCount exObs.length ∧
    ∃ rows2, transformColumns exObs = some rows2 ∧
      rows2.length = exObs.length ∧
      [exRowFemaleOut] = (([1, 0] : List Nat).take (testCount exObs.length)).filterMap
        (fun i => rows2[i]?) ∧
      [exRowMaleOut] = (([1, 0] : List Nat).drop (testCount exObs.length)).filterMap
        (fun i => rows2[i]?) ∧
      List.Disjoint (([1, 0] : List Nat).take (testCount exObs.length))
        (([1, 0] : List Nat).drop (testCount exObs.length)) :=
  transform_split_partition exObs [1, 0] [exRowMaleOut] [exRowFemaleOut] (by decide)

/-- A 100-row input table for concrete runs of `extract`. -/
def exDF100 : DataFrame := { idx := List.range 100, rows := List.replicate 100 blankRow }

/-- A 3-row input table for concrete runs of `extract`. -/
def exDF3 : DataFrame := { idx := [0, 1, 2], rows := List.replicate 3 blankRow }

/-- A 1-row input table for concrete runs of `extract`. -/
def exDF1 : DataFrame := { idx := [0], rows := [blankRow] }

/-- Claim C1, counterexample: on a 1-row input with `test_run` set, the
claim requires `extract` to return the whole table (1 row).  Instead
`observations.sample(100)` on a 1-row table raises ValueError (pandas
cannot draw 100 distinct rows from 1), so `extract` returns the
failure value — shown here for the selections `[0]` and `[]`; no
selection of 100 distinct positions below 1 exists, so every run
fails. -/
theorem extract_small_input_counterexample :
    extract true exDF1 [0] = none ∧ extract true exDF1 [] = none := by
  exact ⟨by decide, by decide⟩

/-- Claim C1 (amended): with `test_run` enabled, when the input has at
least 100 rows (any selection of 100 distinct row positions exists),
`extract` returns exactly 100 rows with a contiguous zero-based row
index; when the input has fewer than 100 rows, `extract` fails
(pandas raises ValueError on `sample(100)`) instead of returning the
full dataset. -/
theorem extract_test_run_amended :
    (∀ (input : DataFrame) (sel : List Nat),
      sel.length = 100 → sel.Nodup → (∀ i, i ∈ sel → i < input.rows.length) →
      ∃ out, extract true input sel = some out ∧
        out.rows.length = 100 ∧ out.idx = List.range 100) ∧
    (∀ (input : DataFrame) (sel : List Nat),
      input.rows.length < 100 → extract true input sel = none) := by
  constructor
  · intro input sel h1 h2 h3
    have hs : sampleN input 100 sel =
        some { idx := sel.filterMap (fun i => input.idx[i]?),
               rows := sel.filterMap (fun i => input.rows[i]?) } := by
      unfold sampleN
      rw [if_pos ⟨h1, h2, h3⟩]
    have hr : (sel.filterMap (fun i => input.rows[i]?)).length = 100 := by
      rw [length_filterMap_getElem input.rows sel h3, h1]
    refine ⟨reset_index { idx := sel.filterMap (fun i => input.idx[i]?),
                          rows := sel.filterMap (fun i => input.rows[i]?) }, ?_, ?_, ?_⟩
    · simp [extract, hs]
    · simpa [reset_index] using hr
    · simp [reset_index, hr]
  · intro input sel hlt
    have hneg : ¬(sel.length = 100 ∧ sel.Nodup ∧ (∀ i, i ∈ sel → i < input.rows.length)) := by
      rintro ⟨h1, h2, h3⟩
      have := nodup_bounded_length_le sel input.rows.length h2 h3
      omega
    have hs : sampleN input 100 sel = none := by
      unfold sampleN
      rw [if_neg hneg]
    simp [extract, hs]

/-- Witness for C1 (amended): a concrete 100-row run (selection: all
positions in order) and a concrete under-100-row failing run. -/
theorem extract_test_run_amended_witness :
    (∃ out, extract true exDF100 (List.range 100) = some out ∧
      out.rows.length = 100 ∧ out.idx = List.range 100) ∧
    extract true exDF3 [0] = none :=
  ⟨extract_test_run_amended.1 exDF100 (List.range 100) (by simp) (List.nodup_range 100)
      (fun i hi => by simpa [exDF100, List.mem_range] using hi),
   extract_test_run_amended.2 exDF3 [0] (by decide)⟩

/-- The constant fitted predictor used in concrete runs of `model`. -/
def exPredictor : Row → Int := fun _ => 0

/-- Claim C7: every row of both partitions carries a non-null `pred`
value after `model`, drawn from the label domain of the `survived`
column of the train partition.  The hypothesis `hp` is the sklearn
contract for a fitted classifier: `predict` returns values among the
classes seen in `y = train['survived']`; the theorem then says the
assignment loop of lines 120-122 gives every row of both partitions
such a value. -/
theorem model_pred_in_label_domain (p : Row → Int) (train test : List Row)
    (hp : ∀ r, p r ∈ trainLabels train) :
    ∀ r2, (r2 ∈ (modelPredict p train test).1 ∨ r2 ∈ (modelPredict p train test).2) →
      predFromLabels (trainLabels train) r2 := by
  intro r2 hr2
  rcases hr2 with hr2 | hr2 <;>
  · simp only [modelPredict, List.mem_map] at hr2
    rcases hr2 with ⟨r, hr, rfl⟩
    exact ⟨p r, rfl, hp r⟩

/-- Witness for C7: a concrete run with the constant-0 predictor on a
one-row train partition whose `survived` label is 0. -/
theorem model_pred_in_label_domain_witness :
    predFromLabels (trainLabels [exRowMaleOut]) (setPred exPredictor exRowMaleOut) :=
  model_pred_in_label_domain exPredictor [exRowMaleOut] []
    (fun _ => by simp [exPredictor, trainLabels, exRowMaleOut, exRowMale, blankRow])
    (setPred exPredictor exRowMaleOut) (Or.inl (by decide))

end TitanicETL
